import Mathlib

/-!
Shallow embedding of the ClimbNThrive TSX screener core: the metrics engine
(financial-metrics module), the optimized TSX fetch client with its disk
cache, the batch data processor, and the retry utility.  JavaScript numbers
are modelled as exact rationals (ℚ); the one transcendental computation
(Math.pow with a fractional exponent in the EPS-CAGR formula) is modelled
over ℝ with real exponentiation.  JavaScript NaN payloads are not modelled
except where a claim depends on them (years-since-IPO, where an invalid
date produces NaN).  I/O (console logging, timing, file paths) is elided;
the data read from or written to the outside world is passed as explicit
parameters.
-/

/-- Model of a loosely typed JavaScript value as it reaches the numeric
coercion helpers (a field typed `number | string | null` plus `undefined`).
Float NaN is not representable in ℚ and is omitted here; no settled claim
depends on a NaN-valued quote field. -/
inductive JsValue : Type
  | num (q : ℚ)
  | str (s : String)
  | nullV
  | undef
deriving DecidableEq

/-- JavaScript `Math.round`: round half toward positive infinity,
`Math.round x = Math.floor (x + 0.5)`. -/
def jsRound {α : Type} [LinearOrderedField α] [FloorRing α] (x : α) : α :=
  ((⌊x + 1 / 2⌋ : ℤ) : α)

/-- JavaScript `x || undefined` applied to a `number | null | undefined`
value: `0`, `null` and `undefined` are falsy and become `undefined`. -/
def orUndefNum (v : Option ℚ) : Option ℚ :=
  match v with
  | some q => if q = 0 then none else some q
  | none => none

/-- JavaScript `x || y` applied to a `string | null | undefined` value:
the empty string, `null` and `undefined` are falsy. -/
def orElseStr (v : Option String) (y : Option String) : Option String :=
  match v with
  | some s => if s = "" then y else some s
  | none => y

/-! ## Metrics engine (financial-metrics module) -/

/-- One entry of the `EpsHistory[]` series: `{ year, eps }`. -/
structure EpsHistory where
  year : ℤ
  eps : ℚ
deriving DecidableEq, Inhabited

/-- Ascending comparator `(a, b) => a.year - b.year` viewed as a total
preorder: `a` sorts no later than `b`. -/
def yearLe (a b : EpsHistory) : Prop := a.year ≤ b.year

/-- Strict version of `yearLe`, used to state distinct-year orderings. -/
def yearLt (a b : EpsHistory) : Prop := a.year < b.year

/-- Descending comparator `(a, b) => b.year - a.year` viewed as a total
preorder. -/
def yearGe (a b : EpsHistory) : Prop := b.year ≤ a.year

/-- Strict version of `yearGe`. -/
def yearGt (a b : EpsHistory) : Prop := b.year < a.year

instance : DecidableRel yearLe :=
  fun a b => inferInstanceAs (Decidable (a.year ≤ b.year))

instance : DecidableRel yearLt :=
  fun a b => inferInstanceAs (Decidable (a.year < b.year))

instance : DecidableRel yearGe :=
  fun a b => inferInstanceAs (Decidable (b.year ≤ a.year))

instance : DecidableRel yearGt :=
  fun a b => inferInstanceAs (Decidable (b.year < a.year))

instance : IsTotal EpsHistory yearLe :=
  ⟨fun a b => Int.le_total a.year b.year⟩

instance : IsTrans EpsHistory yearLe :=
  ⟨fun _ _ _ h₁ h₂ => le_trans h₁ h₂⟩

instance : IsTotal EpsHistory yearGe :=
  ⟨fun a b => Int.le_total b.year a.year⟩

instance : IsTrans EpsHistory yearGe :=
  ⟨fun _ _ _ h₁ h₂ => le_trans h₂ h₁⟩

instance : IsAntisymm EpsHistory yearLt :=
  ⟨fun _ _ h₁ h₂ => absurd (lt_trans h₁ h₂) (lt_irrefl _)⟩

instance : IsAntisymm EpsHistory yearGt :=
  ⟨fun _ _ h₁ h₂ => absurd (lt_trans h₁ h₂) (lt_irrefl _)⟩

/-- `epsHistory.sort((a, b) => a.year - b.year)`: `Array.prototype.sort` is
stable (ES2019), and a stable sort by a total preorder is the unique stable
sort, realized here by insertion sort. -/
def sortByYearAsc (l : List EpsHistory) : List EpsHistory :=
  List.insertionSort yearLe l

/-- `epsHistory.sort((a, b) => b.year - a.year)`: stable descending sort. -/
def sortByYearDesc (l : List EpsHistory) : List EpsHistory :=
  List.insertionSort yearGe l

/-- `computeEpsCagr5Y` from the financial-metrics module.  `Array.sort`
mutates its receiver, so the result is paired with the state of the caller's
array after the call (unchanged on the early length-guard return, sorted
otherwise).  Real exponentiation models `Math.pow`. -/
noncomputable def computeEpsCagr5Y (epsHistory : List EpsHistory) :
    Option ℝ × List EpsHistory :=
  if epsHistory.length < 5 then
    (none, epsHistory)
  else
    let sortedEps := sortByYearAsc epsHistory
    let startEps : ℚ := sortedEps.headI.eps
    let endEps : ℚ := sortedEps.getLastI.eps
    let years : ℤ := sortedEps.getLastI.year - sortedEps.headI.year
    if startEps ≤ 0 ∨ endEps ≤ 0 ∨ years = 0 then
      (none, sortedEps)
    else
      let cagr : ℝ := ((endEps : ℝ) / (startEps : ℝ)) ^ ((1 : ℝ) / (years : ℝ)) - 1
      (some (jsRound (cagr * 10000) / 100), sortedEps)

/-- `computeYearsWithoutLoss`: count consecutive `eps > 0` entries from the
most recent year, stopping at the first loss.  As with `computeEpsCagr5Y`,
the post-call state of the caller's array is returned alongside. -/
def computeYearsWithoutLoss (epsHistory : List EpsHistory) : ℕ × List EpsHistory :=
  if epsHistory.length = 0 then
    (0, epsHistory)
  else
    let sortedEps := sortByYearDesc epsHistory
    ((sortedEps.takeWhile fun e => decide (0 < e.eps)).length, sortedEps)

/-- `computeNetDebtEbitdaRatio`: `(totalDebt - cash) / ebitda` rounded to two
decimal places, `null` when `ebitda <= 0`. -/
def computeNetDebtEbitdaRatio (totalDebt cash ebitda : ℚ) : Option ℚ :=
  if ebitda ≤ 0 then none
  else
    let netDebt := totalDebt - cash
    some (jsRound (netDebt / ebitda * 100) / 100)

/-- Result of `computeYearsSinceIPO` as the JavaScript runtime produces it:
the declared type is `number | null`, but arithmetic on an invalid date
propagates NaN, so NaN is a possible outcome distinct from both. -/
inductive YearsSinceIPOResult : Type
  | jsNull
  | jsNum (q : ℚ)
  | jsNaN
deriving DecidableEq

/-- `computeYearsSinceIPO`.  `new Date(str)` never throws in JavaScript: an
unparseable string yields an Invalid Date whose `getTime()` is NaN
(modelled by `parseDate` returning `none`), NaN propagates through the
subtraction, division and `Math.floor`, and the `catch` branch that would
return `null` is unreachable.  `parseDate` models host date parsing
(epoch milliseconds) and `now` models `Date.now()`. -/
def computeYearsSinceIPO (parseDate : String → Option ℚ) (now : ℚ)
    (ipoDate : String) : YearsSinceIPOResult :=
  match parseDate ipoDate with
  | none => .jsNaN
  | some ipo => .jsNum ((⌊(now - ipo) / (365 * 24 * 60 * 60 * 1000)⌋ : ℤ) : ℚ)

/-- The three data-quality tiers.  `medium` models the source's middle tier
(spelled with the reserved keyword of this prover in the source). -/
inductive DataQuality : Type
  | complete
  | medium
  | minimal
deriving DecidableEq

/-- `assessDataQuality`: count the available (non-null, non-undefined)
fields among the five critical metrics; `>= 4` is complete, `>= 2` is the
middle tier, anything less is minimal. -/
def assessDataQuality (roe roic epsCagr5Y yearsWithoutLoss netMargin : Option ℚ) :
    DataQuality :=
  let availableFields :=
    ([roe, roic, epsCagr5Y, yearsWithoutLoss, netMargin].filter
      fun field => field.isSome).length
  if 4 ≤ availableFields then .complete
  else if 2 ≤ availableFields then .medium
  else .minimal

/-- `safeNumber`: a finite number passes through, a string goes through
`parseFloat` (modelled by the `parseFloat` parameter, `none` for NaN),
anything else is `null`. -/
def safeNumber (parseFloat : String → Option ℚ) (value : JsValue) : Option ℚ :=
  match value with
  | .num q => some q
  | .str s => parseFloat s
  | .nullV => none
  | .undef => none

/-! ## Optimized TSX fetch client (tsx-optimized module) -/

/-- The zod-validated `getQuoteBySymbol` payload of the optimized schema:
identification strings, numeric-or-string ratio fields, and plain nullable
numeric fields. -/
structure RawQuote where
  symbol : String
  name : Option String
  sector : Option String
  returnOnEquity : JsValue
  returnOnAssets : JsValue
  totalDebtToEquity : JsValue
  eps : Option ℚ
  price : Option ℚ
  beta : Option ℚ
  marketCap : Option ℚ
  peRatio : Option ℚ
  dividendYield : Option ℚ
deriving DecidableEq

/-- The whole validated response: the (optional) `errors` array, modelled by
its length with absent treated as empty, and the nullable quote. -/
structure ValidatedResp where
  errorsCount : ℕ
  data : Option RawQuote
deriving DecidableEq

/-- `OptimizedQuoteData` as built by the fetcher (the host-clock `fetchedAt`
string is elided; the cache model below carries the write time
explicitly). -/
structure OptimizedQuoteData where
  symbol : String
  name : Option String
  sector : Option String
  returnOnEquity : Option ℚ
  returnOnAssets : Option ℚ
  totalDebtToEquity : Option ℚ
  eps : Option ℚ
  price : Option ℚ
  beta : Option ℚ
  marketCap : Option ℚ
  peRatio : Option ℚ
  dividendYield : Option ℚ
deriving DecidableEq

/-- `toNumber`: numbers pass through, strings go through `parseFloat`
(NaN mapped to `undefined`), everything else is `undefined`. -/
def toNumber (parseFloat : String → Option ℚ) (value : JsValue) : Option ℚ :=
  match value with
  | .num q => some q
  | .str s => parseFloat s
  | .nullV => none
  | .undef => none

/-- Field-by-field construction of `OptimizedQuoteData` from a validated
quote: `|| undefined` coercions on falsy strings and numbers, `toNumber` on
the numeric-or-string ratio fields. -/
def toOptimizedData (parseFloat : String → Option ℚ) (yahooSymbol : String)
    (quote : RawQuote) : OptimizedQuoteData :=
  { symbol := yahooSymbol
    name := orElseStr quote.name none
    sector := orElseStr quote.sector none
    returnOnEquity := toNumber parseFloat quote.returnOnEquity
    returnOnAssets := toNumber parseFloat quote.returnOnAssets
    totalDebtToEquity := toNumber parseFloat quote.totalDebtToEquity
    eps := orUndefNum quote.eps
    price := orUndefNum quote.price
    beta := orUndefNum quote.beta
    marketCap := orUndefNum quote.marketCap
    peRatio := orUndefNum quote.peRatio
    dividendYield := orUndefNum quote.dividendYield }

/-- Outcome of `response.json()` followed by schema validation: `malformed`
covers both invalid JSON and a zod schema mismatch (each throws inside the
`try` block). -/
inductive ParseOutcome : Type
  | malformed
  | valid (v : ValidatedResp)
deriving DecidableEq

/-- Outcome of the `fetch` call itself: a rejected promise (network error)
or an HTTP response with its `ok` flag, status code and parsed body. -/
inductive Transport : Type
  | netError
  | resp (ok : Bool) (status : ℕ) (parsed : ParseOutcome)
deriving DecidableEq

/-- The distinguishable exceptions thrown inside the fetch `try` block. -/
inductive JsErr : Type
  | network
  | httpError (status : ℕ)
  | validationError
deriving DecidableEq

/-- The body of the `try` block inside `fetchOptimizedQuote`: a network
failure rejects, a non-`ok` response throws the `HTTP <status>` error, a
malformed or schema-mismatched body throws from `json()`/`parse`, GraphQL
errors and a null quote return `null`, and otherwise the converted data is
returned. -/
def fetchTryBlock (parseFloat : String → Option ℚ) (yahooSymbol : String)
    (t : Transport) : Except JsErr (Option OptimizedQuoteData) :=
  match t with
  | .netError => .error .network
  | .resp ok status parsed =>
    if ok = false then .error (.httpError status)
    else
      match parsed with
      | .malformed => .error .validationError
      | .valid v =>
        if 0 < v.errorsCount then .ok none
        else
          match v.data with
          | none => .ok none
          | some quote => .ok (some (toOptimizedData parseFloat yahooSymbol quote))

/-- `fetchOptimizedQuote`: return the cached value when the cache hit, and
otherwise run the `try` block; its `catch` clause logs the error and
returns `null`, so every exception thrown inside — network, HTTP and
validation alike — is swallowed and surfaces as `null`. -/
def fetchOptimizedQuote (parseFloat : String → Option ℚ) (yahooSymbol : String)
    (cached : Option OptimizedQuoteData) (t : Transport) :
    Except JsErr (Option OptimizedQuoteData) :=
  match cached with
  | some c => .ok (some c)
  | none =>
    match fetchTryBlock parseFloat yahooSymbol t with
    | .ok r => .ok r
    | .error _ => .ok none

/-- `TsxOptimizedFetcher.loadFromCache`: `read` is the outcome of
`readFile` + `JSON.parse` (`none` when either throws, which the `catch`
turns into `null`), carrying the payload and its `fetchedAt` time in epoch
milliseconds; the entry is a hit only while strictly younger than 24
hours. -/
def loadFromCache {α : Type} (now : ℚ) (read : Option (α × ℚ)) : Option α :=
  match read with
  | none => none
  | some (cached, fetchedAt) =>
    let cacheAge := now - fetchedAt
    let maxAge : ℚ := 24 * 60 * 60 * 1000
    if cacheAge < maxAge then some cached else none

/-- `loadTsxCache`: the file's mtime (epoch milliseconds) is compared in
hours against `maxAgeHours`; the entry is stale only when strictly older,
and otherwise `read` (the parsed file, `none` when reading or parsing
throws) is returned. -/
def loadTsxCache {α : Type} (now mtime maxAgeHours : ℚ) (read : Option α) :
    Option α :=
  let ageHours := (now - mtime) / (1000 * 60 * 60)
  if maxAgeHours < ageHours then none else read

/-! ## Data processor (data-processor module) -/

/-- The symbol record handed to the processor by ticker discovery. -/
structure ProcessedTsxSymbol where
  symbol : String
  name : String
  sector : Option String
  yahooSymbol : String
deriving DecidableEq

/-- The metrics row built by `convertToFinancialMetrics` (host-clock
`fetchedAt` elided). -/
structure FinancialMetrics where
  ticker : String
  company : String
  sector : Option String
  roe : Option ℚ
  roic : Option ℚ
  dataQuality : DataQuality
deriving DecidableEq

/-- `DataProcessor.convertToFinancialMetrics`: company info with `||`
fallbacks, `roe`/`roic` from `safeNumber(...) || undefined` (so a zero
ratio becomes `undefined`), every other critical metric left undefined, and
the data-quality tier assessed from the partial record. -/
def convertToFinancialMetrics (parseFloat : String → Option ℚ)
    (symbol : ProcessedTsxSymbol) (quoteData : OptimizedQuoteData) :
    FinancialMetrics :=
  let quoteRoe : JsValue :=
    match quoteData.returnOnEquity with
    | some q => .num q
    | none => .undef
  let quoteRoa : JsValue :=
    match quoteData.returnOnAssets with
    | some q => .num q
    | none => .undef
  let roe := orUndefNum (safeNumber parseFloat quoteRoe)
  let roic := orUndefNum (safeNumber parseFloat quoteRoa)
  { ticker := symbol.symbol
    company := (orElseStr quoteData.name (some symbol.name)).getD symbol.name
    sector := orElseStr quoteData.sector symbol.sector
    roe := roe
    roic := roic
    dataQuality := assessDataQuality roe roic none none none }

/-- `DataProcessor.createBatches` body, driven by an explicit fuel argument
standing for the strictly decreasing loop measure (`i < items.length`,
`i += batchSize`); `items.length` fuel suffices for any positive batch
size. -/
def createBatchesGo {α : Type} (batchSize : ℕ) : ℕ → List α → List (List α)
  | 0, _ => []
  | _, [] => []
  | fuel + 1, x :: xs =>
    (x :: xs).take batchSize :: createBatchesGo batchSize fuel ((x :: xs).drop batchSize)

/-- `DataProcessor.createBatches`: slice the list into consecutive batches
of `batchSize`.  The JavaScript loop diverges when `batchSize = 0`
(`i += 0`); that unreachable configuration is modelled as producing no
batches and is excluded by hypothesis in every theorem touching it. -/
def createBatches {α : Type} (items : List α) (batchSize : ℕ) : List (List α) :=
  if batchSize = 0 then [] else createBatchesGo batchSize items.length items

/-- The run summary assembled at the end of `processSymbols` (wall-clock
time and the per-tier tallies are elided; only the counts the claims
mention are kept). -/
structure Summary where
  total : ℕ
  successful : ℕ
  failed : ℕ
deriving DecidableEq

/-- The per-batch `Promise.all` + result-folding loop of `processSymbols`:
each symbol maps to `some metrics` (fetch returned data and conversion ran)
or `none` (fetch returned `null`, or threw and was caught by the per-symbol
`catch`); per batch the successes are appended to the results array and the
success/failure counters advance. -/
def runBatches {σ μ : Type} (perSymbol : σ → Option μ) :
    List (List σ) → List μ × ℕ × ℕ
  | [] => ([], 0, 0)
  | batch :: rest =>
    let restResult := runBatches perSymbol rest
    (batch.filterMap perSymbol ++ restResult.1,
     (batch.filter fun s => (perSymbol s).isSome).length + restResult.2.1,
     (batch.filter fun s => (perSymbol s).isNone).length + restResult.2.2)

/-- The per-symbol async closure of `processSymbols`: `fetch` models
`tsxFetcher.fetchOptimizedQuote` (`.error` = the awaited promise rejected,
caught by the per-symbol `catch` and recorded as a failure; `.ok none` = no
data), `convert` models `convertToFinancialMetrics`; the result is `some`
exactly on the success path. -/
def perSymbolResult {ε : Type}
    (fetch : ProcessedTsxSymbol → Except ε (Option OptimizedQuoteData))
    (convert : ProcessedTsxSymbol → OptimizedQuoteData → FinancialMetrics)
    (s : ProcessedTsxSymbol) : Option FinancialMetrics :=
  match fetch s with
  | .ok (some quoteData) => some (convert s quoteData)
  | .ok none => none
  | .error _ => none

/-- `DataProcessor.processSymbols`: split into batches, run the per-symbol
closure over every batch in order, and assemble the result rows and the run
summary.  Batches are processed sequentially; no exception escapes a
batch. -/
def processSymbols {ε : Type} (fetch : ProcessedTsxSymbol → Except ε (Option OptimizedQuoteData))
    (convert : ProcessedTsxSymbol → OptimizedQuoteData → FinancialMetrics)
    (symbols : List ProcessedTsxSymbol) (batchSize : ℕ) :
    List FinancialMetrics × Summary :=
  let out := runBatches (perSymbolResult fetch convert) (createBatches symbols batchSize)
  (out.1, { total := symbols.length, successful := out.2.1, failed := out.2.2 })

/-! ## Retry utility -/

/-- What a `withRetry` call can be observed to do: resolve with the
operation's value, reject with the aggregate `RetryError` (attempt count
plus last failure), or hit the function-final `throw lastError!` that is
reachable only when `maxAttempts` is zero. -/
inductive RetryOutcome (ε τ : Type) : Type
  | ok (v : τ)
  | retryError (attempts : ℕ) (lastError : ε)
  | internalThrow
deriving DecidableEq

/-- The `for (attempt = 1; attempt <= maxAttempts; attempt++)` loop of
`withRetry`, with the remaining loop iterations as explicit fuel; paired
with the result is the number of times the operation was invoked from this
point on. -/
def retryGo {ε τ : Type} (f : ℕ → Except ε τ) (maxAttempts : ℕ) :
    ℕ → ℕ → RetryOutcome ε τ × ℕ
  | _, 0 => (.internalThrow, 0)
  | attempt, fuel + 1 =>
    match f attempt with
    | .ok v => (.ok v, 1)
    | .error e =>
      if attempt = maxAttempts then (.retryError attempt e, 1)
      else
        let rest := retryGo f maxAttempts (attempt + 1) fuel
        (rest.1, rest.2 + 1)

/-- `withRetry`: attempts are numbered from 1; `f k` is the outcome of the
k-th invocation of the wrapped operation.  Backoff delays only suspend and
do not affect the result, so they are elided. -/
def withRetry {ε τ : Type} (f : ℕ → Except ε τ) (maxAttempts : ℕ) :
    RetryOutcome ε τ × ℕ :=
  retryGo f maxAttempts 1 maxAttempts

/-- Whether an awaited fetch rejects (throws into the caller's `catch`). -/
def fetchThrows {ε α : Type} : Except ε α → Bool
  | .error _ => true
  | .ok _ => false

/-! ## Helper lemmas -/

theorem headI_mem {l : List EpsHistory} (h : l ≠ []) : l.headI ∈ l := by
  cases l with
  | nil => exact absurd rfl h
  | cons a t => exact List.mem_cons_self a t

theorem getLastI_mem {l : List EpsHistory} (h : l ≠ []) : l.getLastI ∈ l := by
  rw [List.getLastI_eq_getLast?]
  cases hl : l.getLast? with
  | none => exact absurd (List.getLast?_eq_none_iff.mp hl) h
  | some a =>
    simpa [Option.iget] using List.mem_of_getLast?_eq_some hl

theorem getLastI_cons_of_ne {a : EpsHistory} {rest : List EpsHistory} (h : rest ≠ []) :
    (a :: rest).getLastI = rest.getLastI := by
  rw [List.getLastI_eq_getLast?, List.getLastI_eq_getLast?]
  cases rest with
  | nil => exact absurd rfl h
  | cons b t => rw [List.getLast?_cons_cons]

theorem pairwise_yearLt_of_yearLe_nodup {l : List EpsHistory}
    (hle : l.Pairwise yearLe) (hnd : (l.map EpsHistory.year).Nodup) :
    l.Pairwise yearLt := by
  rw [List.Nodup, List.pairwise_map] at hnd
  exact (hle.and hnd).imp fun h => lt_of_le_of_ne h.1 h.2

theorem pairwise_yearGt_of_yearGe_nodup {l : List EpsHistory}
    (hge : l.Pairwise yearGe) (hnd : (l.map EpsHistory.year).Nodup) :
    l.Pairwise yearGt := by
  rw [List.Nodup, List.pairwise_map] at hnd
  exact (hge.and hnd).imp fun h => lt_of_le_of_ne h.1 (Ne.symm h.2)

theorem sortByYearAsc_eq_of_perm_nodup {l₁ l₂ : List EpsHistory}
    (hp : l₁.Perm l₂) (hnd : (l₁.map EpsHistory.year).Nodup) :
    sortByYearAsc l₁ = sortByYearAsc l₂ := by
  have p₁ : (sortByYearAsc l₁).Perm l₁ := List.perm_insertionSort yearLe l₁
  have p₂ : (sortByYearAsc l₂).Perm l₂ := List.perm_insertionSort yearLe l₂
  have hperm : (sortByYearAsc l₁).Perm (sortByYearAsc l₂) :=
    p₁.trans (hp.trans p₂.symm)
  have hnd₁ : ((sortByYearAsc l₁).map EpsHistory.year).Nodup :=
    ((p₁.map EpsHistory.year).nodup_iff).mpr hnd
  have hnd₂ : ((sortByYearAsc l₂).map EpsHistory.year).Nodup :=
    ((p₂.map EpsHistory.year).nodup_iff).mpr (((hp.map EpsHistory.year).nodup_iff).mp hnd)
  exact List.eq_of_perm_of_sorted hperm
    (pairwise_yearLt_of_yearLe_nodup (List.sorted_insertionSort yearLe l₁) hnd₁)
    (pairwise_yearLt_of_yearLe_nodup (List.sorted_insertionSort yearLe l₂) hnd₂)

theorem sortByYearDesc_eq_of_perm_nodup {l₁ l₂ : List EpsHistory}
    (hp : l₁.Perm l₂) (hnd : (l₁.map EpsHistory.year).Nodup) :
    sortByYearDesc l₁ = sortByYearDesc l₂ := by
  have p₁ : (sortByYearDesc l₁).Perm l₁ := List.perm_insertionSort yearGe l₁
  have p₂ : (sortByYearDesc l₂).Perm l₂ := List.perm_insertionSort yearGe l₂
  have hperm : (sortByYearDesc l₁).Perm (sortByYearDesc l₂) :=
    p₁.trans (hp.trans p₂.symm)
  have hnd₁ : ((sortByYearDesc l₁).map EpsHistory.year).Nodup :=
    ((p₁.map EpsHistory.year).nodup_iff).mpr hnd
  have hnd₂ : ((sortByYearDesc l₂).map EpsHistory.year).Nodup :=
    ((p₂.map EpsHistory.year).nodup_iff).mpr (((hp.map EpsHistory.year).nodup_iff).mp hnd)
  exact List.eq_of_perm_of_sorted hperm
    (pairwise_yearGt_of_yearGe_nodup (List.sorted_insertionSort yearGe l₁) hnd₁)
    (pairwise_yearGt_of_yearGe_nodup (List.sorted_insertionSort yearGe l₂) hnd₂)

theorem createBatchesGo_join {α : Type} (b : ℕ) (hb : 0 < b) :
    ∀ (fuel : ℕ) (l : List α), l.length ≤ fuel →
      (createBatchesGo b fuel l).flatten = l := by
  intro fuel
  induction fuel with
  | zero =>
    intro l hl
    have : l = [] := List.length_eq_zero.mp (Nat.le_zero.mp hl)
    subst this
    simp [createBatchesGo]
  | succ n ih =>
    intro l hl
    cases l with
    | nil => simp [createBatchesGo]
    | cons x xs =>
      have hdrop : ((x :: xs).drop b).length ≤ n := by
        rw [List.length_drop]
        simp only [List.length_cons] at hl ⊢
        omega
      simp only [createBatchesGo, List.flatten_cons, ih _ hdrop,
        List.take_append_drop]

theorem createBatches_join {α : Type} {l : List α} {b : ℕ} (hb : 0 < b) :
    (createBatches l b).flatten = l := by
  unfold createBatches
  rw [if_neg (by omega)]
  exact createBatchesGo_join b hb l.length l le_rfl

theorem runBatches_eq {σ μ : Type} (p : σ → Option μ) (bs : List (List σ)) :
    runBatches p bs = (bs.flatten.filterMap p,
      (bs.flatten.filter fun s => (p s).isSome).length,
      (bs.flatten.filter fun s => (p s).isNone).length) := by
  induction bs with
  | nil => simp [runBatches]
  | cons batch rest ih =>
    simp [runBatches, ih, List.flatten_cons, List.filterMap_append, List.filter_append]

theorem filter_isSome_add_isNone {σ μ : Type} (p : σ → Option μ) (l : List σ) :
    (l.filter fun s => (p s).isSome).length +
      (l.filter fun s => (p s).isNone).length = l.length := by
  induction l with
  | nil => simp
  | cons x xs ih =>
    cases h : p x <;> simp [List.filter_cons, h] <;> omega

/-! ## Claim theorems -/

/-- C2 counterexample: against the claim, a transport/HTTP failure (here a
non-2xx response with status 500 and no cache hit) does not raise a typed
transient error from `fetchOptimizedQuote` — the thrown `HTTP 500` error is
caught by the function's own `catch` and the call resolves with `null`. -/
theorem fetchOptimizedQuote_http_failure_yields_null :
    fetchOptimizedQuote (fun _ => none) "RY.TO" none
      (.resp false 500 (.valid ⟨0, none⟩)) = .ok none := rfl

/-- C2 (amended): every response shape yields a resolved value from
`fetchOptimizedQuote` — malformed, empty and schema-mismatched responses
yield `null` without raising, and transport/HTTP failures (network errors
and non-2xx responses) are likewise caught inside the function and yield
`null`; no error of any kind escapes to the caller. -/
theorem fetchOptimizedQuote_error_handling :
    ∀ (pf : String → Option ℚ) (sym : String) (cached : Option OptimizedQuoteData)
      (t : Transport),
    (∃ r, fetchOptimizedQuote pf sym cached t = .ok r)
    ∧ (∀ status parsed,
        fetchOptimizedQuote pf sym none (.resp false status parsed) = .ok none)
    ∧ (fetchOptimizedQuote pf sym none .netError = .ok none)
    ∧ (∀ status, fetchOptimizedQuote pf sym none (.resp true status .malformed) = .ok none)
    ∧ (∀ status n d,
        fetchOptimizedQuote pf sym none (.resp true status (.valid ⟨n + 1, d⟩)) = .ok none)
    ∧ (∀ status n,
        fetchOptimizedQuote pf sym none (.resp true status (.valid ⟨n, none⟩)) = .ok none) := by
  intro pf sym cached t
  refine ⟨?_, ?_, ?_, ?_, ?_, ?_⟩
  · cases cached with
    | some c => exact ⟨some c, rfl⟩
    | none =>
      cases h : fetchTryBlock pf sym t with
      | ok r => exact ⟨r, by simp [fetchOptimizedQuote, h]⟩
      | error e => exact ⟨none, by simp [fetchOptimizedQuote, h]⟩
  · intro status parsed
    simp [fetchOptimizedQuote, fetchTryBlock]
  · rfl
  · intro status
    simp [fetchOptimizedQuote, fetchTryBlock]
  · intro status n d
    simp [fetchOptimizedQuote, fetchTryBlock]
  · intro status n
    by_cases hn : 0 < n <;> simp [fetchOptimizedQuote, fetchTryBlock, hn]

/-- C4: the claim (and the source's own `return null; // Invalid date`
comment) says an unparseable date yields `null`, but `new Date(badString)`
never throws — it yields an Invalid Date whose epoch time is NaN, NaN flows
through the arithmetic and `Math.floor`, and the function returns NaN, never
`null`.  Parseable dates do follow the claimed
`floor((now - referenceDate) / 365 days)` formula. -/
theorem computeYearsSinceIPO_behavior :
    ∀ (parseDate : String → Option ℚ) (now : ℚ) (ipoDate : String),
    (parseDate ipoDate = none →
      computeYearsSinceIPO parseDate now ipoDate = .jsNaN)
    ∧ (∀ t, parseDate ipoDate = some t →
        computeYearsSinceIPO parseDate now ipoDate =
          .jsNum ((⌊(now - t) / (365 * 24 * 60 * 60 * 1000)⌋ : ℤ) : ℚ))
    ∧ (parseDate ipoDate = none →
        computeYearsSinceIPO parseDate now ipoDate ≠ .jsNull) := by
  intro parseDate now ipoDate
  refine ⟨fun h => ?_, fun t h => ?_, fun h => ?_⟩
  · simp [computeYearsSinceIPO, h]
  · simp [computeYearsSinceIPO, h]
  · simp [computeYearsSinceIPO, h]

/-- C4 witness: a date-parse model rejecting everything, evaluated at a
concrete unparseable string, produces NaN (not null). -/
theorem computeYearsSinceIPO_behavior_witness :
    (fun _ : String => (none : Option ℚ)) "not-a-date" = none ∧
    computeYearsSinceIPO (fun _ => none) 0 "not-a-date" = .jsNaN := by
  exact ⟨rfl, (computeYearsSinceIPO_behavior (fun _ => none) 0 "not-a-date").1 rfl⟩

/-- C5 counterexample: an entry whose age is exactly its TTL (24 hours, with
`maxAgeHours = 24`) is returned as a hit by `loadTsxCache`, although its age
is not strictly less than the TTL — the claimed strict-inequality hit
condition does not hold for this cache path. -/
theorem loadTsxCache_boundary_hit :
    loadTsxCache (86400000 : ℚ) 0 24 (some (0 : ℚ)) = some 0 ∧
    ¬((86400000 : ℚ) - 0 < 24 * (60 * 60 * 1000)) := by
  constructor
  · norm_num [loadTsxCache]
  · norm_num

/-- C5 (amended): `loadFromCache` returns a hit exactly when the entry's age
is strictly below its 24-hour TTL, while `loadTsxCache` returns a hit
exactly when the age is at most `maxAgeHours` (stale only when strictly
older); on both paths a stale or unreadable entry behaves exactly as a miss,
and the claim's concrete instances hold: with a 24-hour TTL an entry written
at time T is a hit at T+23h and a miss at T+25h. -/
theorem cache_get_ttl_semantics :
    ∀ {α : Type} (now fetchedAt mtime maxAgeHours : ℚ) (p : α),
    (loadFromCache now (some (p, fetchedAt)) = some p ↔
      now - fetchedAt < 24 * 60 * 60 * 1000)
    ∧ (loadFromCache now (none : Option (α × ℚ)) = none)
    ∧ (loadTsxCache now mtime maxAgeHours (some p) = some p ↔
        (now - mtime) / (1000 * 60 * 60) ≤ maxAgeHours)
    ∧ (loadTsxCache now mtime maxAgeHours (none : Option α) = none)
    ∧ (loadFromCache (fetchedAt + 23 * 60 * 60 * 1000) (some (p, fetchedAt)) = some p)
    ∧ (loadFromCache (fetchedAt + 25 * 60 * 60 * 1000) (some (p, fetchedAt)) = none)
    ∧ (loadTsxCache (mtime + 23 * 60 * 60 * 1000) mtime 24 (some p) = some p)
    ∧ (loadTsxCache (mtime + 25 * 60 * 60 * 1000) mtime 24 (some p) = none) := by
  intro α now fetchedAt mtime maxAgeHours p
  refine ⟨?_, rfl, ?_, ?_, ?_, ?_, ?_, ?_⟩
  · show (if now - fetchedAt < 24 * 60 * 60 * 1000 then some p else none) = some p ↔ _
    split_ifs with h
    · simp [h]
    · simp [h]
  · show (if maxAgeHours < (now - mtime) / (1000 * 60 * 60) then none else some p)
        = some p ↔ _
    split_ifs with h
    · simp [not_le.mpr h]
    · simp [le_of_not_lt h]
  · show (if maxAgeHours < (now - mtime) / (1000 * 60 * 60) then none else none)
        = (none : Option α)
    split_ifs <;> rfl
  · show (if fetchedAt + 23 * 60 * 60 * 1000 - fetchedAt < 24 * 60 * 60 * 1000
        then some p else none) = some p
    rw [if_pos (by ring_nf; norm_num)]
  · show (if fetchedAt + 25 * 60 * 60 * 1000 - fetchedAt < 24 * 60 * 60 * 1000
        then some p else none) = (none : Option α)
    rw [if_neg (by ring_nf; norm_num)]
  · show (if (24 : ℚ) < (mtime + 23 * 60 * 60 * 1000 - mtime) / (1000 * 60 * 60)
        then none else some p) = some p
    rw [if_neg (by ring_nf; norm_num)]
  · show (if (24 : ℚ) < (mtime + 25 * 60 * 60 * 1000 - mtime) / (1000 * 60 * 60)
        then none else some p) = (none : Option α)
    rw [if_pos (by ring_nf; norm_num)]

/-- C7: Net Debt/EBITDA is `null` exactly when `ebitda <= 0`, and for
positive EBITDA it is `(totalDebt - cash) / ebitda * 100` rounded down from
half and rescaled — two-decimal rounding; the claim's concrete instances
evaluate to `2` and `null`. -/
theorem computeNetDebtEbitdaRatio_spec :
    ∀ (totalDebt cash ebitda : ℚ),
    (computeNetDebtEbitdaRatio totalDebt cash ebitda = none ↔ ebitda ≤ 0)
    ∧ (0 < ebitda →
        computeNetDebtEbitdaRatio totalDebt cash ebitda =
          some (jsRound ((totalDebt - cash) / ebitda * 100) / 100))
    ∧ computeNetDebtEbitdaRatio 100 20 40 = some 2
    ∧ computeNetDebtEbitdaRatio 100 20 0 = none := by
  intro totalDebt cash ebitda
  refine ⟨?_, fun h => ?_, ?_, ?_⟩
  · unfold computeNetDebtEbitdaRatio
    split_ifs with h
    · simp [h]
    · simp [h]
  · unfold computeNetDebtEbitdaRatio
    rw [if_neg (not_le.mpr h)]
  · have : jsRound ((100 - 20 : ℚ) / 40 * 100) / 100 = 2 := by
      norm_num [jsRound]
    unfold computeNetDebtEbitdaRatio
    rw [if_neg (by norm_num)]
    norm_num [jsRound]
  · rfl

/-- C7 witness: the spec's concrete instance, discharged through the
general theorem at `totalDebt = 100, cash = 20, ebitda = 40`. -/
theorem computeNetDebtEbitdaRatio_spec_witness :
    (0 : ℚ) < 40 ∧
    computeNetDebtEbitdaRatio 100 20 40 =
      some (jsRound (((100 : ℚ) - 20) / 40 * 100) / 100) := by
  exact ⟨by norm_num, (computeNetDebtEbitdaRatio_spec 100 20 40).2.1 (by norm_num)⟩

/-- C9: a quote whose `returnOnEquity` (or `returnOnAssets`) is the number 0
loses that value in `convertToFinancialMetrics` — `safeNumber(...) ||
undefined` turns the falsy 0 into `undefined` — and `assessDataQuality`
then counts the field as missing: with both ratios 0 the row is tiered
`minimal`, while the same row with both ratios 1 is tiered one level
higher. -/
theorem convertToFinancialMetrics_zero_is_dropped :
    ∀ (pf : String → Option ℚ) (sym : ProcessedTsxSymbol) (q : OptimizedQuoteData),
    (q.returnOnEquity = some 0 → (convertToFinancialMetrics pf sym q).roe = none)
    ∧ (q.returnOnAssets = some 0 → (convertToFinancialMetrics pf sym q).roic = none)
    ∧ (q.returnOnEquity = some 0 → q.returnOnAssets = some 0 →
        (convertToFinancialMetrics pf sym q).dataQuality = .minimal)
    ∧ (q.returnOnEquity = some 1 → q.returnOnAssets = some 1 →
        (convertToFinancialMetrics pf sym q).dataQuality = .medium) := by
  intro pf sym q
  refine ⟨fun h => ?_, fun h => ?_, fun h₁ h₂ => ?_, fun h₁ h₂ => ?_⟩
  · simp [convertToFinancialMetrics, h, safeNumber, orUndefNum]
  · simp [convertToFinancialMetrics, h, safeNumber, orUndefNum]
  · simp [convertToFinancialMetrics, h₁, h₂, safeNumber, orUndefNum, assessDataQuality]
  · simp [convertToFinancialMetrics, h₁, h₂, safeNumber, orUndefNum, assessDataQuality]

/-- C9 witness: a concrete quote with both ratios equal to the number 0 is
converted with `roe` undefined and tiered `minimal`. -/
theorem convertToFinancialMetrics_zero_is_dropped_witness :
    (convertToFinancialMetrics (fun _ => none)
      ⟨"AW", "A and W", none, "AW.TO"⟩
      ⟨"AW.TO", none, none, some 0, some 0, none, none, none, none, none, none, none⟩).roe
        = none ∧
    (convertToFinancialMetrics (fun _ => none)
      ⟨"AW", "A and W", none, "AW.TO"⟩
      ⟨"AW.TO", none, none, some 0, some 0, none, none, none, none, none, none, none⟩).dataQuality
        = .minimal := by
  refine ⟨(convertToFinancialMetrics_zero_is_dropped (fun _ => none) _ _).1 rfl,
    (convertToFinancialMetrics_zero_is_dropped (fun _ => none) _ _).2.2.1 rfl rfl⟩

theorem retryGo_always_fails {ε τ : Type} (f : ℕ → Except ε τ) (g : ℕ → ε)
    (hf : ∀ k, f k = .error (g k)) (m : ℕ) :
    ∀ (fuel attempt : ℕ), 1 ≤ fuel → attempt + fuel = m + 1 →
      retryGo f m attempt fuel = (.retryError m (g m), fuel) := by
  intro fuel
  induction fuel with
  | zero => intro attempt h1 _; omega
  | succ n ih =>
    intro attempt _ h2
    by_cases ha : attempt = m
    · have hn : n = 0 := by omega
      subst hn
      subst ha
      simp [retryGo, hf attempt]
    · have hnn : 1 ≤ n := by omega
      have := ih (attempt + 1) hnn (by omega)
      simp [retryGo, hf attempt, ha, this]

/-- C6: a retried operation that fails on its first two attempts and
succeeds on the third resolves with the success value after exactly three
invocations (for any `maxAttempts >= 3`), and an operation that always
fails rejects with the aggregate `RetryError` carrying the attempt count
`maxAttempts` and the last failure, after exactly `maxAttempts`
invocations. -/
theorem withRetry_spec :
    ∀ {ε τ : Type} (f : ℕ → Except ε τ) (g : ℕ → ε) (v : τ) (e₁ e₂ : ε)
      (maxAttempts : ℕ),
    (3 ≤ maxAttempts → f 1 = .error e₁ → f 2 = .error e₂ → f 3 = .ok v →
      withRetry f maxAttempts = (.ok v, 3))
    ∧ (1 ≤ maxAttempts → (∀ k, f k = .error (g k)) →
        withRetry f maxAttempts = (.retryError maxAttempts (g maxAttempts), maxAttempts)) := by
  intro ε τ f g v e₁ e₂ maxAttempts
  constructor
  · intro hm h1 h2 h3
    obtain ⟨k, rfl⟩ : ∃ k, maxAttempts = k + 3 := ⟨maxAttempts - 3, by omega⟩
    have n1 : ¬(1 = k + 3) := by omega
    have n2 : ¬(2 = k + 3) := by omega
    simp [withRetry, retryGo, h1, h2, h3, n1, n2]
  · intro hm hf
    exact retryGo_always_fails f g hf maxAttempts maxAttempts 1 hm (by omega)

/-- C6 witness: a concrete operation failing on attempts 1 and 2 and
succeeding on attempt 3 run with `maxAttempts = 3`, and a concrete
always-failing operation run with `maxAttempts = 3`, evaluated through the
theorem. -/
theorem withRetry_spec_witness :
    withRetry (fun k => if k < 3 then .error (2 * k) else .ok 7) 3 = (.ok 7, 3) ∧
    withRetry (fun k => (.error k : Except ℕ ℕ)) 3 = (.retryError 3 3, 3) := by
  constructor
  · exact (withRetry_spec (fun k => if k < 3 then .error (2 * k) else .ok 7)
      (fun _ => 0) 7 2 4 3).1 (by omega) (by norm_num) (by norm_num) (by norm_num)
  · exact (withRetry_spec (fun k => (.error k : Except ℕ ℕ)) id 7 0 0 3).2
      (by omega) (fun k => rfl)

/-- C1: when exactly one symbol's fetch throws and every other symbol's
fetch resolves with data, `processSymbols` completes normally, every batch
contributes its results, and the summary records `N - 1` successes and one
failure out of `N` symbols; the per-symbol catch turns the exception into a
recorded failure instead of aborting the batch or the run. -/
theorem processSymbols_isolates_failures :
    ∀ {ε : Type} (fetch : ProcessedTsxSymbol → Except ε (Option OptimizedQuoteData))
      (convert : ProcessedTsxSymbol → OptimizedQuoteData → FinancialMetrics)
      (symbols : List ProcessedTsxSymbol) (batchSize : ℕ),
    0 < batchSize →
    (symbols.filter fun s => fetchThrows (fetch s)).length = 1 →
    (∀ s ∈ symbols, fetchThrows (fetch s) = false → ∃ q, fetch s = .ok (some q)) →
    (processSymbols fetch convert symbols batchSize).2.total = symbols.length
    ∧ (processSymbols fetch convert symbols batchSize).2.successful = symbols.length - 1
    ∧ (processSymbols fetch convert symbols batchSize).2.failed = 1
    ∧ (processSymbols fetch convert symbols batchSize).1.length = symbols.length - 1 := by
  intro ε fetch convert symbols batchSize hb h1 h2
  simp only [processSymbols, runBatches_eq, createBatches_join hb]
  have key : ∀ s ∈ symbols,
      ((perSymbolResult fetch convert s).isNone) = fetchThrows (fetch s) := by
    intro s hs
    cases hfs : fetch s with
    | error e => simp [perSymbolResult, hfs, fetchThrows]
    | ok o =>
      obtain ⟨q, hq⟩ := h2 s hs (by simp [fetchThrows, hfs])
      rw [hfs] at hq
      cases hq
      simp [perSymbolResult, hfs, fetchThrows]
  have hfail :
      (symbols.filter fun s => (perSymbolResult fetch convert s).isNone).length = 1 := by
    rw [List.filter_congr key]
    exact h1
  have hsum := filter_isSome_add_isNone (perSymbolResult fetch convert) symbols
  refine ⟨trivial, by omega, hfail, ?_⟩
  rw [List.length_filterMap_eq_countP, List.countP_eq_length_filter]
  omega

/-- C1 witness: three symbols in batches of two, with exactly the middle
symbol's fetch throwing, yield two successes, one failure and two result
rows. -/
theorem processSymbols_isolates_failures_witness :
    (0 < 2)
    ∧ (processSymbols
        (fun s => if s.symbol = "B" then .error "boom"
          else .ok (some ⟨s.yahooSymbol, none, none, none, none, none, none, none,
            none, none, none, none⟩))
        (fun s _ => ⟨s.symbol, s.name, none, none, none, .minimal⟩)
        [⟨"A", "A Co", none, "A.TO"⟩, ⟨"B", "B Co", none, "B.TO"⟩,
         ⟨"C", "C Co", none, "C.TO"⟩] 2).2.successful = 2 := by
  refine ⟨by omega, ?_⟩
  exact (processSymbols_isolates_failures
    (fun s => if s.symbol = "B" then .error "boom"
      else .ok (some ⟨s.yahooSymbol, none, none, none, none, none, none, none,
        none, none, none, none⟩))
    (fun s _ => ⟨s.symbol, s.name, none, none, none, .minimal⟩)
    [⟨"A", "A Co", none, "A.TO"⟩, ⟨"B", "B Co", none, "B.TO"⟩,
     ⟨"C", "C Co", none, "C.TO"⟩] 2 (by omega) (by decide)
    (by
      intro s hs h
      fin_cases hs
      · exact ⟨_, rfl⟩
      · exact absurd h (by decide)
      · exact ⟨_, rfl⟩)).2.1

theorem computeEpsCagr5Y_fst_short {l : List EpsHistory} (h : l.length < 5) :
    (computeEpsCagr5Y l).1 = none := by
  simp [computeEpsCagr5Y, h]

theorem computeEpsCagr5Y_snd_long {l : List EpsHistory} (h : ¬l.length < 5) :
    (computeEpsCagr5Y l).2 = sortByYearAsc l := by
  simp only [computeEpsCagr5Y, if_neg h]
  split <;> rfl

theorem rpow_one_base_cagr (y : ℝ) :
    jsRound (((1 : ℝ) ^ y - 1) * 10000) / 100 = 0 := by
  rw [Real.one_rpow]
  unfold jsRound
  rw [show ((1 : ℝ) - 1) * 10000 + 1 / 2 = 1 / 2 by ring]
  rw [show ⌊(1 / 2 : ℝ)⌋ = 0 from Int.floor_eq_iff.mpr (by norm_num)]
  norm_num

theorem computeEpsCagr5Y_sorted_strict {l : List EpsHistory}
    (hs : l.Pairwise yearLt) (hlen : 5 ≤ l.length)
    (hstart : 0 < l.headI.eps) (hend : 0 < l.getLastI.eps) :
    (computeEpsCagr5Y l).1 =
      some (jsRound ((((l.getLastI.eps : ℝ) / (l.headI.eps : ℝ)) ^
        ((1 : ℝ) / ((l.getLastI.year - l.headI.year : ℤ) : ℝ)) - 1) * 10000) / 100) := by
  have hsorted : List.Sorted yearLe l := hs.imp fun h => le_of_lt h
  have hsort : sortByYearAsc l = l := by
    unfold sortByYearAsc
    exact hsorted.insertionSort_eq
  obtain ⟨a, rest, rfl⟩ : ∃ a rest, l = a :: rest := by
    cases l with
    | nil => simp at hlen
    | cons a rest => exact ⟨a, rest, rfl⟩
  have hrest : rest ≠ [] := by
    cases rest with
    | nil => simp at hlen
    | cons b t => simp
  have hlast : (a :: rest).getLastI ∈ rest := by
    rw [getLastI_cons_of_ne hrest]
    exact getLastI_mem hrest
  have hspan : a.year < (a :: rest).getLastI.year :=
    (List.pairwise_cons.mp hs).1 _ hlast
  have hh : (a :: rest).headI = a := rfl
  have hguard : ¬((a :: rest).headI.eps ≤ 0 ∨ (a :: rest).getLastI.eps ≤ 0 ∨
      (a :: rest).getLastI.year - (a :: rest).headI.year = 0) := by
    push_neg
    refine ⟨hstart, hend, ?_⟩
    rw [hh]
    omega
  simp only [computeEpsCagr5Y, if_neg (by omega : ¬(a :: rest).length < 5),
    hsort, if_neg hguard]

/-- C3 counterexample: a five-entry history spanning only four distinct
years (2000 appears twice) is not rejected — the guard checks the entry
count, not distinct years — and the function returns a value. -/
theorem computeEpsCagr5Y_repeated_years_value :
    (([⟨2000, 1⟩, ⟨2000, 1⟩, ⟨2001, 1⟩, ⟨2002, 1⟩, ⟨2004, 1⟩] : List EpsHistory).map
        EpsHistory.year).dedup.length = 4
    ∧ (computeEpsCagr5Y
        [⟨2000, 1⟩, ⟨2000, 1⟩, ⟨2001, 1⟩, ⟨2002, 1⟩, ⟨2004, 1⟩]).1 = some 0 := by
  constructor
  · decide
  · have hsort : sortByYearAsc [⟨2000, 1⟩, ⟨2000, 1⟩, ⟨2001, 1⟩, ⟨2002, 1⟩, ⟨2004, 1⟩] =
        [⟨2000, 1⟩, ⟨2000, 1⟩, ⟨2001, 1⟩, ⟨2002, 1⟩, ⟨2004, 1⟩] := by decide
    have h1 : ([⟨2000, 1⟩, ⟨2000, 1⟩, ⟨2001, 1⟩, ⟨2002, 1⟩, ⟨2004, 1⟩] :
        List EpsHistory).headI = ⟨2000, 1⟩ := rfl
    have h2 : ([⟨2000, 1⟩, ⟨2000, 1⟩, ⟨2001, 1⟩, ⟨2002, 1⟩, ⟨2004, 1⟩] :
        List EpsHistory).getLastI = ⟨2004, 1⟩ := by decide
    simp only [computeEpsCagr5Y, hsort, h1, h2]
    rw [if_neg (by decide), if_neg (by decide)]
    have hbase : (((⟨2004, 1⟩ : EpsHistory).eps : ℝ) / ((⟨2000, 1⟩ : EpsHistory).eps : ℝ))
        = 1 := by norm_num
    rw [hbase, rpow_one_base_cagr]

/-- C3 (amended): `computeEpsCagr5Y` returns `null` for any history with
fewer than five entries, and for any history all of whose entries share a
single year (zero year span); the guard counts entries, not distinct years,
so five or more entries spanning fewer than five distinct years can still
produce a value. -/
theorem computeEpsCagr5Y_null_guards :
    ∀ l : List EpsHistory,
    (l.length < 5 → (computeEpsCagr5Y l).1 = none)
    ∧ ((∀ a ∈ l, ∀ b ∈ l, a.year = b.year) → (computeEpsCagr5Y l).1 = none) := by
  intro l
  constructor
  · intro h
    exact computeEpsCagr5Y_fst_short h
  · intro h
    by_cases hlen : l.length < 5
    · exact computeEpsCagr5Y_fst_short hlen
    · have hne : sortByYearAsc l ≠ [] := by
        have hl : (sortByYearAsc l).length = l.length :=
          (List.perm_insertionSort yearLe l).length_eq
        intro hnil
        rw [hnil] at hl
        simp at hl
        omega
      have hmemh : (sortByYearAsc l).headI ∈ l :=
        (List.perm_insertionSort yearLe l).subset (headI_mem hne)
      have hmeml : (sortByYearAsc l).getLastI ∈ l :=
        (List.perm_insertionSort yearLe l).subset (getLastI_mem hne)
      have hyear : (sortByYearAsc l).getLastI.year - (sortByYearAsc l).headI.year = 0 := by
        have := h _ hmeml _ hmemh
        omega
      simp only [computeEpsCagr5Y]
      rw [if_neg hlen, if_pos (Or.inr (Or.inr hyear))]

/-- C3 witness: a three-entry history evaluated through the amended
theorem's length guard. -/
theorem computeEpsCagr5Y_null_guards_witness :
    (([⟨2000, 1⟩, ⟨2001, 1⟩, ⟨2002, 1⟩] : List EpsHistory).length < 5)
    ∧ (computeEpsCagr5Y [⟨2000, 1⟩, ⟨2001, 1⟩, ⟨2002, 1⟩]).1 = none := by
  exact ⟨by decide,
    (computeEpsCagr5Y_null_guards [⟨2000, 1⟩, ⟨2001, 1⟩, ⟨2002, 1⟩]).1 (by decide)⟩

theorem two_rpow_quarter_bounds :
    (1.18915 : ℝ) ≤ (2 : ℝ) ^ ((1 : ℝ) / 4) ∧ (2 : ℝ) ^ ((1 : ℝ) / 4) < 1.18925 := by
  have hx0 : (0 : ℝ) < (2 : ℝ) ^ ((1 : ℝ) / 4) :=
    Real.rpow_pos_of_pos (by norm_num) _
  have hx4 : ((2 : ℝ) ^ ((1 : ℝ) / 4)) ^ (4 : ℕ) = 2 := by
    rw [← Real.rpow_natCast ((2 : ℝ) ^ ((1 : ℝ) / 4)) 4,
      ← Real.rpow_mul (by norm_num : (0 : ℝ) ≤ 2)]
    norm_num
  constructor
  · have hle : (1.18915 : ℝ) ^ (4 : ℕ) ≤ ((2 : ℝ) ^ ((1 : ℝ) / 4)) ^ (4 : ℕ) := by
      rw [hx4]
      norm_num
    exact le_of_pow_le_pow_left₀ (by norm_num) (le_of_lt hx0) hle
  · have hlt : ((2 : ℝ) ^ ((1 : ℝ) / 4)) ^ (4 : ℕ) < (1.18925 : ℝ) ^ (4 : ℕ) := by
      rw [hx4]
      norm_num
    exact lt_of_pow_lt_pow_left₀ 4 (by norm_num) hlt

theorem jsRound_two_rpow_quarter :
    jsRound (((2 : ℝ) ^ ((1 : ℝ) / 4) - 1) * 10000) / 100 = (18.92 : ℝ) := by
  obtain ⟨hlb, hub⟩ := two_rpow_quarter_bounds
  unfold jsRound
  rw [show ⌊((2 : ℝ) ^ ((1 : ℝ) / 4) - 1) * 10000 + 1 / 2⌋ = (1892 : ℤ) from
    Int.floor_eq_iff.mpr ⟨by push_cast; nlinarith, by push_cast; nlinarith⟩]
  norm_num

/-- C8: for a history already sorted with at least five strictly ascending
(hence distinct) years and strictly positive endpoint EPS values,
`computeEpsCagr5Y` returns `(end/start)^(1/yearSpan) - 1` as a percentage
rounded to two decimals; in particular years `[2000..2004]` with endpoint
values 10 and 20 yield `18.92`. -/
theorem computeEpsCagr5Y_formula :
    (∀ l : List EpsHistory, l.Pairwise yearLt → 5 ≤ l.length →
      0 < l.headI.eps → 0 < l.getLastI.eps →
      (computeEpsCagr5Y l).1 =
        some (jsRound ((((l.getLastI.eps : ℝ) / (l.headI.eps : ℝ)) ^
          ((1 : ℝ) / ((l.getLastI.year - l.headI.year : ℤ) : ℝ)) - 1) * 10000) / 100))
    ∧ (computeEpsCagr5Y
        [⟨2000, 10⟩, ⟨2001, 12⟩, ⟨2002, 14⟩, ⟨2003, 17⟩, ⟨2004, 20⟩]).1 =
        some (18.92 : ℝ) := by
  constructor
  · exact fun l hs hlen h1 h2 => computeEpsCagr5Y_sorted_strict hs hlen h1 h2
  · have h := computeEpsCagr5Y_sorted_strict
      (l := [⟨2000, 10⟩, ⟨2001, 12⟩, ⟨2002, 14⟩, ⟨2003, 17⟩, ⟨2004, 20⟩])
      (by decide) (by decide) (by decide) (by decide)
    rw [h]
    have h1' : ([⟨2000, 10⟩, ⟨2001, 12⟩, ⟨2002, 14⟩, ⟨2003, 17⟩, ⟨2004, 20⟩] :
        List EpsHistory).headI = ⟨2000, 10⟩ := rfl
    have h2' : ([⟨2000, 10⟩, ⟨2001, 12⟩, ⟨2002, 14⟩, ⟨2003, 17⟩, ⟨2004, 20⟩] :
        List EpsHistory).getLastI = ⟨2004, 20⟩ := by decide
    rw [h1', h2']
    have hb : (((⟨2004, 20⟩ : EpsHistory).eps : ℝ) / ((⟨2000, 10⟩ : EpsHistory).eps : ℝ))
        = 2 := by norm_num
    have hy : (((⟨2004, 20⟩ : EpsHistory).year - (⟨2000, 10⟩ : EpsHistory).year : ℤ) : ℝ)
        = 4 := by norm_num
    rw [hb, hy, jsRound_two_rpow_quarter]

/-- C8 witness: the general formula applied to a concrete strictly
ascending five-year history with unit EPS at both endpoints. -/
theorem computeEpsCagr5Y_formula_witness :
    (([⟨0, 1⟩, ⟨1, 1⟩, ⟨2, 1⟩, ⟨3, 1⟩, ⟨4, 1⟩] : List EpsHistory).Pairwise yearLt)
    ∧ (computeEpsCagr5Y [⟨0, 1⟩, ⟨1, 1⟩, ⟨2, 1⟩, ⟨3, 1⟩, ⟨4, 1⟩]).1 =
      some (jsRound (((((([⟨0, 1⟩, ⟨1, 1⟩, ⟨2, 1⟩, ⟨3, 1⟩, ⟨4, 1⟩] :
          List EpsHistory).getLastI.eps : ℚ) : ℝ) /
        ((([⟨0, 1⟩, ⟨1, 1⟩, ⟨2, 1⟩, ⟨3, 1⟩, ⟨4, 1⟩] :
          List EpsHistory).headI.eps : ℚ) : ℝ)) ^
        ((1 : ℝ) / ((([⟨0, 1⟩, ⟨1, 1⟩, ⟨2, 1⟩, ⟨3, 1⟩, ⟨4, 1⟩] :
            List EpsHistory).getLastI.year -
          ([⟨0, 1⟩, ⟨1, 1⟩, ⟨2, 1⟩, ⟨3, 1⟩, ⟨4, 1⟩] :
            List EpsHistory).headI.year : ℤ) : ℝ)) - 1) * 10000) / 100) := by
  exact ⟨by decide,
    computeEpsCagr5Y_formula.1 [⟨0, 1⟩, ⟨1, 1⟩, ⟨2, 1⟩, ⟨3, 1⟩, ⟨4, 1⟩]
      (by decide) (by decide) (by decide) (by decide)⟩

/-- C10 counterexample: with a repeated year, the stable sort's tie order
makes the returned value depend on the input ordering — two permutations of
the same five entries (a loss and a profit both dated 2000) give `null` in
one order and a value in the other, refuting order-independence of the
returned value. -/
theorem computeEpsCagr5Y_order_matters :
    ([⟨2000, -1⟩, ⟨2000, 1⟩, ⟨2001, 1⟩, ⟨2002, 1⟩, ⟨2004, 1⟩] : List EpsHistory).Perm
      [⟨2000, 1⟩, ⟨2000, -1⟩, ⟨2001, 1⟩, ⟨2002, 1⟩, ⟨2004, 1⟩]
    ∧ (computeEpsCagr5Y [⟨2000, -1⟩, ⟨2000, 1⟩, ⟨2001, 1⟩, ⟨2002, 1⟩, ⟨2004, 1⟩]).1 = none
    ∧ (computeEpsCagr5Y [⟨2000, 1⟩, ⟨2000, -1⟩, ⟨2001, 1⟩, ⟨2002, 1⟩, ⟨2004, 1⟩]).1
        = some 0 := by
  refine ⟨List.Perm.swap _ _ _, ?_, ?_⟩
  · have hsort : sortByYearAsc [⟨2000, -1⟩, ⟨2000, 1⟩, ⟨2001, 1⟩, ⟨2002, 1⟩, ⟨2004, 1⟩] =
        [⟨2000, -1⟩, ⟨2000, 1⟩, ⟨2001, 1⟩, ⟨2002, 1⟩, ⟨2004, 1⟩] := by decide
    simp only [computeEpsCagr5Y, hsort]
    rw [if_neg (by decide), if_pos (by decide)]
  · have hsort : sortByYearAsc [⟨2000, 1⟩, ⟨2000, -1⟩, ⟨2001, 1⟩, ⟨2002, 1⟩, ⟨2004, 1⟩] =
        [⟨2000, 1⟩, ⟨2000, -1⟩, ⟨2001, 1⟩, ⟨2002, 1⟩, ⟨2004, 1⟩] := by decide
    have h1 : ([⟨2000, 1⟩, ⟨2000, -1⟩, ⟨2001, 1⟩, ⟨2002, 1⟩, ⟨2004, 1⟩] :
        List EpsHistory).headI = ⟨2000, 1⟩ := rfl
    have h2 : ([⟨2000, 1⟩, ⟨2000, -1⟩, ⟨2001, 1⟩, ⟨2002, 1⟩, ⟨2004, 1⟩] :
        List EpsHistory).getLastI = ⟨2004, 1⟩ := by decide
    simp only [computeEpsCagr5Y, hsort, h1, h2]
    rw [if_neg (by decide), if_neg (by decide)]
    have hbase : (((⟨2004, 1⟩ : EpsHistory).eps : ℝ) / ((⟨2000, 1⟩ : EpsHistory).eps : ℝ))
        = 1 := by norm_num
    rw [hbase, rpow_one_base_cagr]

/-- C10 (amended): both functions sort the caller's array in place — there
are inputs each function leaves reordered — and the returned value is
independent of the input ordering provided all years in the history are
distinct (with a repeated year the stable sort's tie order can change the
endpoints, and with them the value). -/
theorem eps_functions_sort_in_place :
    (∃ l : List EpsHistory, (computeEpsCagr5Y l).2 ≠ l)
    ∧ (∃ l : List EpsHistory, (computeYearsWithoutLoss l).2 ≠ l)
    ∧ (∀ l₁ l₂ : List EpsHistory, l₁.Perm l₂ → (l₁.map EpsHistory.year).Nodup →
        (computeEpsCagr5Y l₁).1 = (computeEpsCagr5Y l₂).1)
    ∧ (∀ l₁ l₂ : List EpsHistory, l₁.Perm l₂ → (l₁.map EpsHistory.year).Nodup →
        (computeYearsWithoutLoss l₁).1 = (computeYearsWithoutLoss l₂).1) := by
  refine ⟨?_, ?_, ?_, ?_⟩
  · refine ⟨[⟨2001, 1⟩, ⟨2000, 1⟩, ⟨2002, 1⟩, ⟨2003, 1⟩, ⟨2004, 1⟩], ?_⟩
    rw [computeEpsCagr5Y_snd_long (by decide)]
    decide
  · exact ⟨[⟨2000, 1⟩, ⟨2001, 1⟩], by decide⟩
  · intro l₁ l₂ hp hnd
    by_cases hlen : l₁.length < 5
    · rw [computeEpsCagr5Y_fst_short hlen,
        computeEpsCagr5Y_fst_short (hp.length_eq ▸ hlen)]
    · have hs := sortByYearAsc_eq_of_perm_nodup hp hnd
      have hl := hp.length_eq
      have h₂ : ¬l₂.length < 5 := by omega
      simp only [computeEpsCagr5Y, if_neg hlen, if_neg h₂, hs]
  · intro l₁ l₂ hp hnd
    by_cases hlen : l₁.length = 0
    · have h1 : l₁ = [] := List.length_eq_zero.mp hlen
      have h2 : l₂ = [] := List.length_eq_zero.mp (hp.length_eq ▸ hlen)
      rw [h1, h2]
    · have hs := sortByYearDesc_eq_of_perm_nodup hp hnd
      have hl := hp.length_eq
      have h₂ : ¬l₂.length = 0 := by omega
      simp only [computeYearsWithoutLoss, if_neg hlen, if_neg h₂, hs]

/-- C10 witness: a two-entry history with distinct years compared against
its reversal through the order-independence part of the theorem. -/
theorem eps_functions_sort_in_place_witness :
    (([⟨2001, 2⟩, ⟨2000, 1⟩] : List EpsHistory).Perm [⟨2000, 1⟩, ⟨2001, 2⟩])
    ∧ ((([⟨2001, 2⟩, ⟨2000, 1⟩] : List EpsHistory).map EpsHistory.year).Nodup)
    ∧ (computeEpsCagr5Y [⟨2001, 2⟩, ⟨2000, 1⟩]).1 =
        (computeEpsCagr5Y [⟨2000, 1⟩, ⟨2001, 2⟩]).1 := by
  exact ⟨by decide, by decide,
    eps_functions_sort_in_place.2.2.1 _ _ (by decide) (by decide)⟩
